import Mathlib

/-!
# Verification of the accelerator management backend core

Shallow embedding of `src/main.py` (a FastAPI CRUD service managing three
persisted collections: applications, DevOps records, and per-environment
infrastructure records) together with theorems settling the claims about it.

Modelling conventions:
* JSON documents loaded from the three files are part of an explicit
  `AppState`; `load_json_file` is assumed to succeed (the documents exist and
  parse), which is the storage boundary of the specification.
* `save_json_file` outcomes are modelled by explicit boolean parameters where
  a claim depends on persistence failure, and each attempted save is recorded
  in an explicit trace of `SaveEvent`s.
* Python `dict` documents become structures; the environment-keyed
  infrastructure document becomes an association list (Python dicts preserve
  insertion order and have unique keys).
* The free-form `components` dict of an infrastructure record is never
  inspected by the code, so its values are carried opaquely as strings.
* Python string/number operations used by the code (`str.split("-")`,
  `int(...)`, `f"{n:03d}"`, `str.startswith`) are modelled character-wise on
  `List Char`.
-/

deriving instance DecidableEq for Except

/-- HTTP error raised via `HTTPException(status_code, detail)`. -/
structure HTTPError where
  status_code : Nat
  detail : String
deriving DecidableEq, Repr

/-- Request body for `POST /applications` (`ApplicationRequest`). -/
structure ApplicationRequest where
  applicationName : String
  displayName : String
  type : String
  description : String
  version : String
  status : String
  owner : String
  maintainer : String
  tags : List String
deriving DecidableEq, Repr

/-- `CICDPipeline` sub-object of a DevOps request/record. -/
structure CICDPipeline where
  provider : String
  buildPipeline : String
  releasePipeline : String
  deploymentStrategy : String
deriving DecidableEq, Repr

/-- `CodeQuality` sub-object of a DevOps request/record. -/
structure CodeQuality where
  sonarQube : String
  codeCoverage : String
  securityScan : String
deriving DecidableEq, Repr

/-- `Monitoring` sub-object of a DevOps request/record. -/
structure Monitoring where
  applicationInsights : String
  logAnalytics : String
  alerts : List String
deriving DecidableEq, Repr

/-- Request body for `POST /devops` (`DevOpsRequest`). -/
structure DevOpsRequest where
  applicationName : String
  repositoryUrl : String
  cicdPipeline : CICDPipeline
  codeQuality : CodeQuality
  monitoring : Monitoring
deriving DecidableEq, Repr

/-- Request body for `POST /infrastructure` (`InfrastructureRequest`).
`components` is a free-form dict, carried opaquely (never inspected). -/
structure InfrastructureRequest where
  applicationName : String
  environment : String
  cloud : String
  region : String
  resourceGroup : String
  components : List (String × String)
deriving DecidableEq, Repr

/-- A stored application record (element of
`application_details.json`'s `applications` array). -/
structure Application where
  id : String
  applicationName : String
  displayName : String
  type : String
  description : String
  version : String
  status : String
  owner : String
  maintainer : String
  tags : List String
deriving DecidableEq, Repr

/-- A stored DevOps record (element of `devops_details.json`'s
`applications` array). -/
structure DevOpsRecord where
  id : String
  applicationName : String
  repositoryUrl : String
  cicdPipeline : CICDPipeline
  codeQuality : CodeQuality
  monitoring : Monitoring
deriving DecidableEq, Repr

/-- A stored infrastructure record (element of one environment's array in
`infrastructure_details.json`). -/
structure InfraRecord where
  id : String
  applicationName : String
  cloud : String
  region : String
  resourceGroup : String
  components : List (String × String)
deriving DecidableEq, Repr

/-- The environment-keyed infrastructure document: an insertion-ordered
mapping from environment name to its record array. -/
abbrev EnvMap := List (String × List InfraRecord)

/-- The three persisted documents, as one explicit state. -/
structure AppState where
  applications : List Application
  devops : List DevOpsRecord
  environments : EnvMap
deriving DecidableEq, Repr

/-- Records that expose the two fields read by `find_app_by_id_or_name`
(`app.get("id")` and `app.get("applicationName")`). -/
class HasIdName (α : Type) where
  recId : α → String
  recName : α → String

instance : HasIdName Application := ⟨Application.id, Application.applicationName⟩

instance : HasIdName DevOpsRecord := ⟨DevOpsRecord.id, DevOpsRecord.applicationName⟩

instance : HasIdName InfraRecord := ⟨InfraRecord.id, InfraRecord.applicationName⟩

/-- `find_app_by_id_or_name(data, identifier)`: first record whose `id` or
`applicationName` equals `identifier`, else `None`. -/
def find_app_by_id_or_name {α : Type} [HasIdName α] : List α → String → Option α
  | [], _ => none
  | a :: rest, identifier =>
    if HasIdName.recId a = identifier ∨ HasIdName.recName a = identifier then some a
    else find_app_by_id_or_name rest identifier

/-- Whether a record matches an identifier by id or applicationName. -/
def matchesId {α : Type} [HasIdName α] (identifier : String) (a : α) : Bool :=
  HasIdName.recId a = identifier || HasIdName.recName a = identifier

/-! ## Python string and integer primitives -/

/-- Splitting at `'-'`, accumulated as (segment before the first dash,
remaining segments): the recursive core of `s.split("-")`. -/
def splitDashCore : List Char → List Char × List (List Char)
  | [] => ([], [])
  | c :: rest =>
    if c = '-' then ([], (splitDashCore rest).1 :: (splitDashCore rest).2)
    else (c :: (splitDashCore rest).1, (splitDashCore rest).2)

/-- `s.split("-")` on a character list: split at every `'-'`; adjacent or
edge dashes give empty segments, the empty string gives `[""]`. -/
def splitDash (l : List Char) : List (List Char) :=
  (splitDashCore l).1 :: (splitDashCore l).2

/-- The digit character for a decimal digit value (0–9). -/
def decDigitChar : Nat → Char
  | 0 => '0' | 1 => '1' | 2 => '2' | 3 => '3' | 4 => '4'
  | 5 => '5' | 6 => '6' | 7 => '7' | 8 => '8' | _ => '9'

/-- Big-endian decimal digit characters of `n`, with explicit fuel (each
step divides by 10, so fuel `n` is always enough). -/
def toDecCharsAux : Nat → Nat → List Char
  | 0, _ => []
  | _, 0 => []
  | fuel + 1, n + 1 =>
    toDecCharsAux fuel ((n + 1) / 10) ++ [decDigitChar ((n + 1) % 10)]

/-- Decimal character list of a natural number (`str(n)` in Python). -/
def toDecChars (n : Nat) : List Char :=
  if n = 0 then ['0'] else toDecCharsAux n n

/-- Tail of Python's integer-literal digit grammar: digits possibly
separated by single underscores, not ending in an underscore. -/
def pyDigitsTail : List Char → Bool
  | [] => true
  | c :: rest =>
    if c = '_' then
      match rest with
      | [] => false
      | c2 :: rest2 => c2.isDigit && pyDigitsTail rest2
    else c.isDigit && pyDigitsTail rest

/-- Python's unsigned-digits grammar `\d(_?\d)*` (underscores allowed
between digits since Python 3.6). -/
def pyDigitsOk : List Char → Bool
  | [] => false
  | c :: rest => c.isDigit && pyDigitsTail rest

/-- Numeric value of a digit sequence, skipping grouping underscores. -/
def pyUIntVal (l : List Char) : Nat :=
  (l.filter (· ≠ '_')).foldl (fun n c => 10 * n + (c.toNat - 48)) 0

/-- Strip leading and trailing whitespace (`int(...)` tolerates it). -/
def trimWS (l : List Char) : List Char :=
  ((l.dropWhile Char.isWhitespace).reverse.dropWhile Char.isWhitespace).reverse

/-- Python `int(s)` for a decimal string: optional surrounding whitespace,
optional single sign, then the digit grammar; `none` models `ValueError`. -/
def pyInt (s : List Char) : Option Int :=
  match trimWS s with
  | [] => none
  | c :: rest =>
    if c = '+' then (if pyDigitsOk rest then some (pyUIntVal rest) else none)
    else if c = '-' then (if pyDigitsOk rest then some (-(pyUIntVal rest : Int)) else none)
    else (if pyDigitsOk (c :: rest) then some (pyUIntVal (c :: rest)) else none)

/-- `f"{n:03d}"`: decimal rendering zero-padded to width 3, the sign
counting toward the width. -/
def py03dChars (n : Int) : List Char :=
  let s := toDecChars n.natAbs
  let sign : List Char := if n < 0 then ['-'] else []
  sign ++ List.replicate (3 - (sign.length + s.length)) '0' ++ s

/-- String form of `f"{n:03d}"`. -/
def py03d (n : Int) : String := String.mk (py03dChars n)

/-! ## Identifier Service (`generate_next_id`) -/

/-- The numeric contribution of one stored id to `generate_next_id`'s scan:
`int(app["id"].split("-")[1])` guarded by `id.startswith("app-")`, with
`ValueError`/`IndexError` (`none`) meaning the id is skipped. -/
def idCandidate (id : String) : Option Int :=
  if "app-".data.isPrefixOf id.data then
    match (splitDash id.data).get? 1 with
    | some seg => pyInt seg
    | none => none
  else none

/-- The running maximum `max_id` after scanning a list of applications,
starting from an accumulator (the loop starts at `0`). -/
def maxIdFold (acc : Int) (applications : List Application) : Int :=
  applications.foldl
    (fun m a =>
      match idCandidate a.id with
      | some num => max m num
      | none => m) acc

/-- `generate_next_id(applications)`: `"app-001"` for an empty collection,
else `f"app-{max_id + 1:03d}"` for the scanned maximum. -/
def generate_next_id (applications : List Application) : String :=
  if applications.isEmpty then "app-001"
  else "app-" ++ py03d (maxIdFold 0 applications + 1)

/-! ## Environment mapping helpers (Python dict on the infra document) -/

/-- The key list of the environments mapping, in insertion order. -/
def envKeys (envs : EnvMap) : List String := envs.map Prod.fst

/-- `environment in infra_data["environments"]`: key membership. -/
def envHasKey (envs : EnvMap) (k : String) : Bool := envs.any (fun p => p.1 = k)

/-- `infra_data["environments"][k]`: value of a key (first entry; real
dicts have unique keys, and every use in the code is guarded by the key
check). -/
def envLookup (envs : EnvMap) (k : String) : List InfraRecord :=
  match envs.find? (fun p => p.1 = k) with
  | some p => p.2
  | none => []

/-- `infra_data["environments"][k].append(rec)`: append one record to the
array stored under `k`, leaving every other entry untouched. -/
def envAppend (envs : EnvMap) (k : String) (rec : InfraRecord) : EnvMap :=
  envs.map (fun p => if p.1 = k then (p.1, p.2 ++ [rec]) else p)

/-- Python `repr` of a string, as rendered inside `f"...{list(keys)}"`,
for names without quotes, backslashes or control characters. -/
def pyStrRepr (s : String) : String := "'" ++ s ++ "'"

/-- `", ".join(parts)`. -/
def commaJoin : List String → String
  | [] => ""
  | [s] => s
  | s :: rest => s ++ ", " ++ commaJoin rest

/-- Python rendering of `list(env_keys)` inside an f-string. -/
def pyStrListRepr (keys : List String) : String :=
  "[" ++ commaJoin (keys.map pyStrRepr) ++ "]"

/-- Detail string of the 400 error for an unknown environment:
`f"Invalid environment '{env}'. Valid environments: {list(keys)}"`. -/
def invalidEnvDetail (env : String) (keys : List String) : String :=
  "Invalid environment '" ++ env ++ "'. Valid environments: " ++ pyStrListRepr keys

/-! ## Application Registry (`create_application`) -/

/-- `POST /applications`: conflict check via `find_app_by_id_or_name` on the
requested name, then id assignment, verbatim field copy, append, save.
Returns the response (the created record, or the raised `HTTPException`)
together with the persisted application collection. -/
def create_application (apps : List Application) (app_request : ApplicationRequest) :
    Except HTTPError Application × List Application :=
  match find_app_by_id_or_name apps app_request.applicationName with
  | some _ =>
    (.error ⟨409, "Application '" ++ app_request.applicationName ++ "' already exists"⟩, apps)
  | none =>
    let new_id := generate_next_id apps
    let new_app : Application :=
      { id := new_id
        applicationName := app_request.applicationName
        displayName := app_request.displayName
        type := app_request.type
        description := app_request.description
        version := app_request.version
        status := app_request.status
        owner := app_request.owner
        maintainer := app_request.maintainer
        tags := app_request.tags }
    (.ok new_app, apps ++ [new_app])

/-- State after folding a list of create requests from a starting
collection, keeping the previous state when a request errors. -/
def runCreates (apps : List Application) (reqs : List ApplicationRequest) : List Application :=
  reqs.foldl (fun s r => (create_application s r).2) apps

/-! ## DevOps Registry (`create_devops_details`) -/

/-- The stored DevOps record built from the owning application's id and a
request's fields. -/
def mkDevOpsRecord (appId : String) (applicationName : String) (r : DevOpsRequest) :
    DevOpsRecord :=
  { id := appId
    applicationName := applicationName
    repositoryUrl := r.repositoryUrl
    cicdPipeline := r.cicdPipeline
    codeQuality := r.codeQuality
    monitoring := r.monitoring }

/-- `POST /devops`: existence gate on the application collection, conflict
gate on the DevOps collection, then append and save. Returns the response
and the (possibly unchanged) full state. -/
def create_devops_details (st : AppState) (devops_request : DevOpsRequest) :
    Except HTTPError DevOpsRecord × AppState :=
  match find_app_by_id_or_name st.applications devops_request.applicationName with
  | none => (.error ⟨404, "Application not found"⟩, st)
  | some app =>
    match find_app_by_id_or_name st.devops devops_request.applicationName with
    | some _ =>
      (.error ⟨409, "DevOps details for '" ++ devops_request.applicationName ++ "' already exist"⟩,
        st)
    | none =>
      let new_devops := mkDevOpsRecord app.id devops_request.applicationName devops_request
      (.ok new_devops, { st with devops := st.devops ++ [new_devops] })

/-! ## Infrastructure Registry (`create_infrastructure_details`) -/

/-- The stored infrastructure record built from the owning application's id
and a request's fields (the request's `environment` selects the bucket and
is not stored in the record). -/
def mkInfraRecord (appId : String) (applicationName : String) (r : InfrastructureRequest) :
    InfraRecord :=
  { id := appId
    applicationName := applicationName
    cloud := r.cloud
    region := r.region
    resourceGroup := r.resourceGroup
    components := r.components }

/-- `POST /infrastructure`: existence gate on the application collection,
environment-key gate on the infra document, conflict gate within the
requested environment, then append to that environment and save. -/
def create_infrastructure_details (st : AppState) (infra_request : InfrastructureRequest) :
    Except HTTPError InfraRecord × AppState :=
  match find_app_by_id_or_name st.applications infra_request.applicationName with
  | none => (.error ⟨404, "Application not found"⟩, st)
  | some app =>
    if envHasKey st.environments infra_request.environment then
      match find_app_by_id_or_name (envLookup st.environments infra_request.environment)
          infra_request.applicationName with
      | some _ =>
        (.error ⟨409, "Infrastructure details for '" ++ infra_request.applicationName ++
          "' in '" ++ infra_request.environment ++ "' already exist"⟩, st)
      | none =>
        let new_infra := mkInfraRecord app.id infra_request.applicationName infra_request
        (.ok new_infra,
          { st with environments := envAppend st.environments infra_request.environment new_infra })
    else
      (.error ⟨400, invalidEnvDetail infra_request.environment (envKeys st.environments)⟩, st)

/-! ## Onboarding Orchestrator (`onboard_application_details`) -/

/-- One attempted `save_json_file`, with the document content that was
written and whether the write succeeded. -/
inductive SaveEvent
  | devopsSave (doc : List DevOpsRecord) (ok : Bool)
  | infraSave (doc : EnvMap) (ok : Bool)
deriving DecidableEq, Repr

/-- Whether a save event targets `infrastructure_details.json`. -/
def SaveEvent.isInfraSave : SaveEvent → Bool
  | .infraSave _ _ => true
  | .devopsSave _ _ => false

/-- Detail carried by the `HTTPException` that `save_json_file` raises on a
write error (`str(e)` of the wrapped exception is not reproduced
character-for-character; only the failing file is tracked). -/
def saveErrorDetail (filename : String) : String := "Error saving " ++ filename

/-- The `results["devops"]` dict: a `status` string plus an optional
`message` and an optional `data` payload. -/
structure DevOpsResult where
  status : String
  message : Option String
  data : Option DevOpsRecord
deriving DecidableEq, Repr

/-- One element of `results["infrastructure"]`: the echoed environment
name, a `status` string, and an optional `message` / `data` payload. -/
structure ItemResult where
  environment : String
  status : String
  message : Option String
  data : Option InfraRecord
deriving DecidableEq, Repr

/-- The `results` dict accumulated by the orchestrator. -/
structure OnboardResults where
  devops : DevOpsResult
  infrastructure : List ItemResult
deriving DecidableEq, Repr

/-- The dict returned by a non-raising onboard call: either the normal
completion response or the distinguished partial-success response returned
when the final infrastructure save fails. -/
inductive OnboardResponse
  | completed (applicationName : String) (results : OnboardResults)
  | infraSaveFailed (error : String) (results : OnboardResults)
deriving DecidableEq, Repr

/-- The top-level `message` field of an onboard response dict. -/
def OnboardResponse.message : OnboardResponse → String
  | .completed _ _ => "Application onboarding completed"
  | .infraSaveFailed _ _ => "Partial success - DevOps saved but infrastructure save failed"

/-- The `results` field of an onboard response dict. -/
def OnboardResponse.results : OnboardResponse → OnboardResults
  | .completed _ r => r
  | .infraSaveFailed _ r => r

/-- The per-item error dict for an unknown environment inside the loop. -/
def invalidEnvItem (env : String) : ItemResult :=
  ⟨env, "error", some ("Invalid environment '" ++ env ++ "'"), none⟩

/-- The per-item dict for an already-present (app, environment) record. -/
def existsItem (env : String) : ItemResult :=
  ⟨env, "exists", some "Infrastructure details already exist", none⟩

/-- The per-item dict for a newly created record. -/
def createdItem (env : String) (rec : InfraRecord) : ItemResult :=
  ⟨env, "created", none, some rec⟩

/-- The orchestrator's infrastructure loop: one pass over the requests,
threading the in-memory infra document and collecting one `ItemResult` per
request, in order. -/
def processInfra (appId : String) (application_name : String) :
    EnvMap → List InfrastructureRequest → EnvMap × List ItemResult
  | envs, [] => (envs, [])
  | envs, r :: rs =>
    if envHasKey envs r.environment then
      match find_app_by_id_or_name (envLookup envs r.environment) application_name with
      | some _ =>
        ((processInfra appId application_name envs rs).1,
          existsItem r.environment :: (processInfra appId application_name envs rs).2)
      | none =>
        ((processInfra appId application_name
            (envAppend envs r.environment (mkInfraRecord appId application_name r)) rs).1,
          createdItem r.environment (mkInfraRecord appId application_name r) ::
            (processInfra appId application_name
              (envAppend envs r.environment (mkInfraRecord appId application_name r)) rs).2)
    else
      ((processInfra appId application_name envs rs).1,
        invalidEnvItem r.environment :: (processInfra appId application_name envs rs).2)

/-- The orchestrator's DevOps step: `exists` when a record already matches
the path name, otherwise build from the owning app's id and the request's
fields, append and save; a failing save is caught and downgraded to an
`error` result (the appended document is then not persisted). Returns the
result dict, the persisted DevOps collection, and the save trace. -/
def onboardDevOpsStep (app : Application) (application_name : String)
    (devops_request : DevOpsRequest) (devops : List DevOpsRecord) (saveOk : Bool) :
    DevOpsResult × List DevOpsRecord × List SaveEvent :=
  match find_app_by_id_or_name devops application_name with
  | some _ => (⟨"exists", some "DevOps details already exist", none⟩, devops, [])
  | none =>
    let new_devops := mkDevOpsRecord app.id application_name devops_request
    let doc := devops ++ [new_devops]
    if saveOk then
      (⟨"created", none, some new_devops⟩, doc, [.devopsSave doc true])
    else
      (⟨"error", some (saveErrorDetail "devops_details.json"), none⟩, devops,
        [.devopsSave doc false])

/-- `POST /onboard/{application_name}`: abort 404 when the application is
missing; otherwise run the DevOps step, the infrastructure loop, and the
single final infrastructure save, whose failure is downgraded to the
partial-success response. `devopsSaveOk` / `infraSaveOk` are the outcomes
of the two possible `save_json_file` calls. Returns the response, the
resulting persisted state, and the trace of attempted saves. -/
def onboard_application_details (st : AppState) (application_name : String)
    (devops_request : DevOpsRequest) (infrastructure_requests : List InfrastructureRequest)
    (devopsSaveOk : Bool) (infraSaveOk : Bool) :
    Except HTTPError OnboardResponse × AppState × List SaveEvent :=
  match find_app_by_id_or_name st.applications application_name with
  | none => (.error ⟨404, "Application not found"⟩, st, [])
  | some app =>
    let step := onboardDevOpsStep app application_name devops_request st.devops devopsSaveOk
    let run := processInfra app.id application_name st.environments infrastructure_requests
    let results : OnboardResults := ⟨step.1, run.2⟩
    if infraSaveOk then
      (.ok (.completed application_name results),
        ⟨st.applications, step.2.1, run.1⟩, step.2.2 ++ [.infraSave run.1 true])
    else
      (.ok (.infraSaveFailed (saveErrorDetail "infrastructure_details.json") results),
        ⟨st.applications, step.2.1, st.environments⟩, step.2.2 ++ [.infraSave run.1 false])

/-! ## Cross-environment scan (`get_app_infrastructure_all_environments`) -/

/-- `GET /infrastructure/app/{identifier}`: scan every environment's array
with `find_app_by_id_or_name`, keep the environments that matched, and 404
when the resulting dict is empty. -/
def get_app_infrastructure_all_environments (envs : EnvMap) (identifier : String) :
    Except HTTPError (String × List (String × InfraRecord)) :=
  if (envs.filterMap
      (fun p => (find_app_by_id_or_name p.2 identifier).map (fun a => (p.1, a)))).isEmpty then
    .error ⟨404, "Infrastructure details not found for '" ++ identifier ++ "'"⟩
  else
    .ok (identifier, envs.filterMap
      (fun p => (find_app_by_id_or_name p.2 identifier).map (fun a => (p.1, a))))

/-! ## Profile composition (`get_complete_profile`) -/

/-- The composite profile dict returned by `GET /profile/{identifier}`. -/
structure Profile where
  application : Application
  devops : Option DevOpsRecord
  infrastructure : Option InfraRecord
  environment : String
deriving DecidableEq, Repr

/-- `GET /profile/{identifier}` with an explicit environment: 404 only when
the application itself is missing; DevOps and environment-scoped
infrastructure lookups are best-effort (`None` when absent, including when
the environment is not a key of the infra document). -/
def get_complete_profile (st : AppState) (identifier : String) (environment : String) :
    Except HTTPError Profile :=
  match find_app_by_id_or_name st.applications identifier with
  | none => .error ⟨404, "Application not found"⟩
  | some app_details =>
    let devops_details := find_app_by_id_or_name st.devops identifier
    let infra_details :=
      if envHasKey st.environments environment then
        find_app_by_id_or_name (envLookup st.environments environment) identifier
      else none
    .ok ⟨app_details, devops_details, infra_details, environment⟩

/-- The route wrapper: the optional `environment` query parameter defaults
to `"production"` when not supplied. -/
def get_complete_profile_route (st : AppState) (identifier : String)
    (environment : Option String) : Except HTTPError Profile :=
  get_complete_profile st identifier (environment.getD "production")

/-! ## Concrete sample values (used by counterexamples and witnesses) -/

/-- An application record with given id and name and empty other fields. -/
def mkApp (id name : String) : Application :=
  ⟨id, name, "", "", "", "", "", "", "", []⟩

/-- An application create request with given name and empty other fields. -/
def mkAppRequest (name : String) : ApplicationRequest :=
  ⟨name, "", "", "", "", "", "", "", []⟩

/-- A DevOps request with given name and fixed sub-objects. -/
def mkDevOpsRequest (name : String) : DevOpsRequest :=
  ⟨name, "https://example.test/repo", ⟨"ado", "build", "release", "rolling"⟩,
    ⟨"sq", "cov", "scan"⟩, ⟨"ai", "la", ["alert1"]⟩⟩

/-- An infrastructure request with given name and environment. -/
def mkInfraRequest (name env : String) : InfrastructureRequest :=
  ⟨name, env, "azure", "eastus", "rg-1", [("vm", "2")]⟩

/-! ## Spec-side Identifier Service (for refinement comparison)

`specNextId` follows the specification's words for the Identifier Service:
scan identifiers matching the pattern `app-` followed by digits, take the
maximum numeric suffix (skipping malformed identifiers), return `app-`
followed by that maximum plus one zero-padded to 3 digits, and `app-001`
when no applications exist. -/

/-- Numeric suffix of an identifier of the form `app-` followed by digits;
`none` for any other (malformed) identifier. -/
def specSuffix (id : String) : Option Nat :=
  if "app-".data.isPrefixOf id.data then
    let rest := id.data.drop 4
    if rest ≠ [] ∧ rest.all Char.isDigit then
      some (rest.foldl (fun n c => 10 * n + (c.toNat - 48)) 0)
    else none
  else none

/-- The Identifier Service as the specification words it. -/
def specNextId (applications : List Application) : String :=
  if applications.isEmpty then "app-001"
  else
    "app-" ++ py03d
      ((applications.foldl
        (fun m a =>
          match specSuffix a.id with
          | some n => max m n
          | none => m) 0 : Nat) + 1)

/-- A sample persisted state: one application (`app-001` / `alpha`) with a
DevOps record and a production infrastructure record, and two environments. -/
def sampleState : AppState :=
  { applications := [mkApp "app-001" "alpha"]
    devops := [mkDevOpsRecord "app-001" "alpha" (mkDevOpsRequest "alpha")]
    environments :=
      [("production", [mkInfraRecord "app-001" "alpha" (mkInfraRequest "alpha" "production")]),
        ("staging", [])] }

/-- Ids are exactly `app-001 .. app-NNN` in order, and the scan maximum is
the collection length. -/
def sequentialIds (apps : List Application) : Prop :=
  apps.map Application.id =
    (List.range apps.length).map (fun i => "app-" ++ py03d (i + 1 : Nat)) ∧
  maxIdFold 0 apps = (apps.length : Int)

/-- The application record built by a successful create: the assigned id
plus the request's fields copied verbatim. -/
def newApp (apps : List Application) (r : ApplicationRequest) : Application :=
  { id := generate_next_id apps
    applicationName := r.applicationName
    displayName := r.displayName
    type := r.type
    description := r.description
    version := r.version
    status := r.status
    owner := r.owner
    maintainer := r.maintainer
    tags := r.tags }

/-- The outcome recorded for one infrastructure request, given the
in-memory environments document at the moment it is processed. -/
def stepItem (appId : String) (application_name : String) (envs : EnvMap)
    (r : InfrastructureRequest) : ItemResult :=
  if envHasKey envs r.environment then
    match find_app_by_id_or_name (envLookup envs r.environment) application_name with
    | some _ => existsItem r.environment
    | none => createdItem r.environment (mkInfraRecord appId application_name r)
  else invalidEnvItem r.environment

/-- The in-memory environments document after one infrastructure request. -/
def stepEnvs (appId : String) (application_name : String) (envs : EnvMap)
    (r : InfrastructureRequest) : EnvMap :=
  if envHasKey envs r.environment then
    match find_app_by_id_or_name (envLookup envs r.environment) application_name with
    | some _ => envs
    | none => envAppend envs r.environment (mkInfraRecord appId application_name r)
  else envs

/-- Equality of DevOps requests on every field except `applicationName`. -/
def DevOpsRequest.sameButName (a b : DevOpsRequest) : Prop :=
  a.repositoryUrl = b.repositoryUrl ∧ a.cicdPipeline = b.cicdPipeline ∧
  a.codeQuality = b.codeQuality ∧ a.monitoring = b.monitoring

/-- Equality of infrastructure requests on every field except
`applicationName`. -/
def InfrastructureRequest.sameButName (a b : InfrastructureRequest) : Prop :=
  a.environment = b.environment ∧ a.cloud = b.cloud ∧ a.region = b.region ∧
  a.resourceGroup = b.resourceGroup ∧ a.components = b.components

/-! ## Basic lemmas about the lookup and environment helpers -/

theorem find_eq_find? {α : Type} [HasIdName α] (l : List α) (identifier : String) :
    find_app_by_id_or_name l identifier = l.find? (matchesId identifier) := by
  induction l with
  | nil => rfl
  | cons a t ih =>
    by_cases h1 : HasIdName.recId a = identifier <;>
      by_cases h2 : HasIdName.recName a = identifier <;>
        simp [find_app_by_id_or_name, List.find?, matchesId, h1, h2, ih]

theorem envAppend_cons (p : String × List InfraRecord) (t : EnvMap) (k : String)
    (r : InfraRecord) :
    envAppend (p :: t) k r =
      (if p.1 = k then (p.1, p.2 ++ [r]) else p) :: envAppend t k r := rfl

theorem envLookup_cons (p : String × List InfraRecord) (t : EnvMap) (k : String) :
    envLookup (p :: t) k = if p.1 = k then p.2 else envLookup t k := by
  by_cases h : p.1 = k
  · simp [envLookup, List.find?_cons_of_pos, h]
  · simp only [envLookup, h, if_false]
    rw [List.find?_cons_of_neg]
    simp [h]

theorem envKeys_envAppend (envs : EnvMap) (k : String) (r : InfraRecord) :
    envKeys (envAppend envs k r) = envKeys envs := by
  induction envs with
  | nil => rfl
  | cons p t ih =>
    rw [envAppend_cons]
    simp only [envKeys, List.map_cons, List.cons.injEq]
    refine ⟨?_, ?_⟩
    · by_cases h : p.1 = k <;> simp [h]
    · simpa [envKeys] using ih

theorem envHasKey_iff (envs : EnvMap) (k : String) :
    envHasKey envs k = true ↔ k ∈ envKeys envs := by
  simp only [envHasKey, envKeys, List.any_eq_true, List.mem_map, decide_eq_true_eq]

theorem envHasKey_congr {envs envs' : EnvMap} (h : envKeys envs = envKeys envs')
    (k : String) : envHasKey envs k = envHasKey envs' k := by
  cases hb : envHasKey envs' k with
  | true => exact (envHasKey_iff envs k).mpr (h ▸ (envHasKey_iff envs' k).mp hb)
  | false =>
    cases hb' : envHasKey envs k with
    | false => rfl
    | true =>
      have hmem := (envHasKey_iff envs' k).mpr (h ▸ (envHasKey_iff envs k).mp hb')
      rw [hb] at hmem
      exact absurd hmem (by simp)

theorem envLookup_envAppend_self {envs : EnvMap} {k : String}
    (hk : envHasKey envs k = true) (r : InfraRecord) :
    envLookup (envAppend envs k r) k = envLookup envs k ++ [r] := by
  induction envs with
  | nil => simp [envHasKey] at hk
  | cons p t ih =>
    rw [envAppend_cons]
    by_cases h : p.1 = k
    · rw [if_pos h]
      rw [envLookup_cons, envLookup_cons]
      simp [h]
    · rw [if_neg h]
      rw [envLookup_cons, envLookup_cons, if_neg h, if_neg h]
      have hk' : envHasKey t k = true := by
        simpa [envHasKey, h] using hk
      exact ih hk'

theorem envLookup_envAppend_other (envs : EnvMap) {k k' : String}
    (hne : k' ≠ k) (r : InfraRecord) :
    envLookup (envAppend envs k r) k' = envLookup envs k' := by
  induction envs with
  | nil => rfl
  | cons p t ih =>
    rw [envAppend_cons]
    by_cases h : p.1 = k
    · have h' : ¬ p.1 = k' := fun hc => hne (hc ▸ h)
      rw [if_pos h, envLookup_cons, envLookup_cons, if_neg h']
      have : ¬ (p.1, p.2 ++ [r]).1 = k' := h'
      rw [if_neg this]
      exact ih
    · rw [if_neg h, envLookup_cons, envLookup_cons]
      by_cases h2 : p.1 = k'
      · rw [if_pos h2, if_pos h2]
      · rw [if_neg h2, if_neg h2]
        exact ih

/-! ## Sample state shared by witnesses -/


/-! ## Claim C5 -/

/-- C5: a DevOps-create or Infrastructure-create whose `applicationName`
matches no application record (by id or name) fails 404 NotFound — decided
against the application collection alone — and leaves the whole persisted
state unchanged. -/
theorem claim_C5 (st : AppState) (dreq : DevOpsRequest) (ireq : InfrastructureRequest)
    (hd : find_app_by_id_or_name st.applications dreq.applicationName = none)
    (hi : find_app_by_id_or_name st.applications ireq.applicationName = none) :
    create_devops_details st dreq = (.error ⟨404, "Application not found"⟩, st) ∧
    create_infrastructure_details st ireq = (.error ⟨404, "Application not found"⟩, st) := by
  constructor
  · unfold create_devops_details
    rw [hd]
  · unfold create_infrastructure_details
    rw [hi]

/-- C5 witness: against a non-empty state, creating DevOps or
infrastructure details for the unknown name `ghost` returns 404 and keeps
the state. -/
theorem claim_C5_witness :
    create_devops_details sampleState (mkDevOpsRequest "ghost") =
      (.error ⟨404, "Application not found"⟩, sampleState) ∧
    create_infrastructure_details sampleState (mkInfraRequest "ghost" "production") =
      (.error ⟨404, "Application not found"⟩, sampleState) :=
  claim_C5 sampleState (mkDevOpsRequest "ghost") (mkInfraRequest "ghost" "production")
    (by decide) (by decide)

/-! ## Claim C9 -/

/-- C9: `getProfile` fails 404 exactly when the application identifier
matches no application record (the only failure); otherwise it returns the
application record, the DevOps record or `none`, the infrastructure record
of the requested environment only or `none` (also `none` when the
environment is not a key), with the environment echoed, defaulting to
`production` when the query parameter is absent. -/
theorem claim_C9 (st : AppState) (identifier : String) (environment : Option String) :
    (get_complete_profile_route st identifier environment =
        .error ⟨404, "Application not found"⟩ ↔
      find_app_by_id_or_name st.applications identifier = none) ∧
    (∀ app, find_app_by_id_or_name st.applications identifier = some app →
      get_complete_profile_route st identifier environment =
        .ok { application := app
              devops := find_app_by_id_or_name st.devops identifier
              infrastructure :=
                if envHasKey st.environments (environment.getD "production") then
                  find_app_by_id_or_name
                    (envLookup st.environments (environment.getD "production")) identifier
                else none
              environment := environment.getD "production" }) ∧
    get_complete_profile_route st identifier none =
      get_complete_profile st identifier "production" := by
  refine ⟨?_, ?_, rfl⟩
  · unfold get_complete_profile_route get_complete_profile
    cases h : find_app_by_id_or_name st.applications identifier with
    | none => simp
    | some a => simp
  · intro app h
    unfold get_complete_profile_route get_complete_profile
    rw [h]

/-- C9 witness: the profile of `alpha` in the (absent) staging record case
succeeds with a null infrastructure field, and the default environment is
production. -/
theorem claim_C9_witness :
    (get_complete_profile_route sampleState "alpha" (some "staging") =
        .error ⟨404, "Application not found"⟩ ↔
      find_app_by_id_or_name sampleState.applications "alpha" = none) ∧
    (∀ app, find_app_by_id_or_name sampleState.applications "alpha" = some app →
      get_complete_profile_route sampleState "alpha" (some "staging") =
        .ok { application := app
              devops := find_app_by_id_or_name sampleState.devops "alpha"
              infrastructure :=
                if envHasKey sampleState.environments ((some "staging").getD "production") then
                  find_app_by_id_or_name
                    (envLookup sampleState.environments ((some "staging").getD "production"))
                    "alpha"
                else none
              environment := (some "staging").getD "production" }) ∧
    get_complete_profile_route sampleState "alpha" none =
      get_complete_profile sampleState "alpha" "production" :=
  claim_C9 sampleState "alpha" (some "staging")

/-! ## Claim C7 -/

/-- C7: a successful standalone Infrastructure-create appends the new
record at the end of the requested environment's collection only: the key
set is unchanged, every other environment's collection is unchanged, and
the other two persisted collections are unchanged. -/
theorem claim_C7 (st st' : AppState) (ireq : InfrastructureRequest) (rec : InfraRecord)
    (h : create_infrastructure_details st ireq = (.ok rec, st')) :
    envKeys st'.environments = envKeys st.environments ∧
    envLookup st'.environments ireq.environment =
      envLookup st.environments ireq.environment ++ [rec] ∧
    (∀ k, k ≠ ireq.environment → envLookup st'.environments k = envLookup st.environments k) ∧
    st'.applications = st.applications ∧ st'.devops = st.devops := by
  unfold create_infrastructure_details at h
  cases hfind : find_app_by_id_or_name st.applications ireq.applicationName with
  | none =>
    rw [hfind] at h
    simp at h
  | some app =>
    rw [hfind] at h
    cases henv : envHasKey st.environments ireq.environment with
    | false =>
      rw [henv] at h
      simp at h
    | true =>
      rw [henv] at h
      cases hex : find_app_by_id_or_name (envLookup st.environments ireq.environment)
          ireq.applicationName with
      | some old =>
        rw [hex] at h
        simp at h
      | none =>
        rw [hex] at h
        simp at h
        obtain ⟨hrec, hst⟩ := h
        subst hrec
        subst hst
        refine ⟨envKeys_envAppend _ _ _, envLookup_envAppend_self henv _,
          fun k hk => envLookup_envAppend_other _ hk _, rfl, rfl⟩

/-- C7 witness: creating a staging record for `alpha` appends to staging
only and leaves production and the key set untouched. -/
theorem claim_C7_witness :
    envKeys ((create_infrastructure_details sampleState
        (mkInfraRequest "alpha" "staging")).2).environments =
      envKeys sampleState.environments ∧
    envLookup ((create_infrastructure_details sampleState
        (mkInfraRequest "alpha" "staging")).2).environments "staging" =
      envLookup sampleState.environments "staging" ++
        [mkInfraRecord "app-001" "alpha" (mkInfraRequest "alpha" "staging")] ∧
    (∀ k, k ≠ "staging" →
      envLookup ((create_infrastructure_details sampleState
          (mkInfraRequest "alpha" "staging")).2).environments k =
        envLookup sampleState.environments k) ∧
    ((create_infrastructure_details sampleState
        (mkInfraRequest "alpha" "staging")).2).applications = sampleState.applications ∧
    ((create_infrastructure_details sampleState
        (mkInfraRequest "alpha" "staging")).2).devops = sampleState.devops :=
  claim_C7 sampleState (create_infrastructure_details sampleState
      (mkInfraRequest "alpha" "staging")).2
    (mkInfraRequest "alpha" "staging")
    (mkInfraRecord "app-001" "alpha" (mkInfraRequest "alpha" "staging"))
    rfl

/-! ## Claim C8 -/

/-- C8: the cross-environment scan returns exactly the environments whose
collection has a record matching the identifier (by id or name), each
mapped to its first matching record; it fails 404 exactly when no
environment yields a match (an empty mapping is never a success), and it
reads only the infrastructure document, regardless of the application
collection. -/
theorem claim_C8 (envs : EnvMap) (identifier : String) :
    (get_app_infrastructure_all_environments envs identifier =
        .error ⟨404, "Infrastructure details not found for '" ++ identifier ++ "'"⟩ ↔
      ∀ p ∈ envs, find_app_by_id_or_name p.2 identifier = none) ∧
    (∀ m, get_app_infrastructure_all_environments envs identifier = .ok (identifier, m) →
      m ≠ [] ∧
      m = envs.filterMap
        (fun p => (p.2.find? (matchesId identifier)).map (fun a => (p.1, a)))) ∧
    (∀ st st' : AppState, st.environments = st'.environments →
      get_app_infrastructure_all_environments st.environments identifier =
        get_app_infrastructure_all_environments st'.environments identifier) := by
  have hres : envs.filterMap
      (fun p => (find_app_by_id_or_name p.2 identifier).map (fun a => (p.1, a))) =
      envs.filterMap (fun p => (p.2.find? (matchesId identifier)).map (fun a => (p.1, a))) := by
    simp only [find_eq_find?]
  have hempty : (envs.filterMap
      (fun p => (find_app_by_id_or_name p.2 identifier).map (fun a => (p.1, a)))).isEmpty = true ↔
      ∀ p ∈ envs, find_app_by_id_or_name p.2 identifier = none := by
    rw [List.isEmpty_iff, List.filterMap_eq_nil_iff]
    constructor
    · intro h p hp
      have := h p hp
      simpa [Option.map_eq_none'] using this
    · intro h p hp
      simp [Option.map_eq_none', h p hp]
  refine ⟨?_, ?_, fun st st' h => by rw [h]⟩
  · unfold get_app_infrastructure_all_environments
    cases he : (envs.filterMap
        (fun p => (find_app_by_id_or_name p.2 identifier).map (fun a => (p.1, a)))).isEmpty with
    | true =>
      simpa using hempty.mp he
    | false =>
      simp only [Bool.false_eq_true, if_false]
      constructor
      · intro h
        exact absurd h (by simp)
      · intro h
        have : (envs.filterMap
            (fun p => (find_app_by_id_or_name p.2 identifier).map (fun a => (p.1, a)))).isEmpty
            = true := hempty.mpr h
        rw [he] at this
        exact absurd this (by simp)
  · intro m hm
    unfold get_app_infrastructure_all_environments at hm
    cases he : (envs.filterMap
        (fun p => (find_app_by_id_or_name p.2 identifier).map (fun a => (p.1, a)))).isEmpty with
    | true =>
      rw [he] at hm
      simp at hm
    | false =>
      rw [he] at hm
      simp only [Bool.false_eq_true, if_false, Except.ok.injEq, Prod.mk.injEq, true_and] at hm
      subst hm
      refine ⟨?_, hres⟩
      intro hnil
      rw [hnil] at he
      simp at he

/-- C8 witness: scanning for `alpha` over the sample environments yields
exactly the production entry, and the 404 condition matches. -/
theorem claim_C8_witness :
    (get_app_infrastructure_all_environments sampleState.environments "alpha" =
        .error ⟨404, "Infrastructure details not found for '" ++ "alpha" ++ "'"⟩ ↔
      ∀ p ∈ sampleState.environments, find_app_by_id_or_name p.2 "alpha" = none) ∧
    (∀ m, get_app_infrastructure_all_environments sampleState.environments "alpha" =
        .ok ("alpha", m) →
      m ≠ [] ∧
      m = sampleState.environments.filterMap
        (fun p => (p.2.find? (matchesId "alpha")).map (fun a => (p.1, a)))) ∧
    (∀ st st' : AppState, st.environments = st'.environments →
      get_app_infrastructure_all_environments st.environments "alpha" =
        get_app_infrastructure_all_environments st'.environments "alpha") :=
  claim_C8 sampleState.environments "alpha"

/-! ## Claim C6 -/

theorem commaJoin_mem (keys : List String) (k : String) (hk : k ∈ keys) :
    ∃ pre post, commaJoin (keys.map pyStrRepr) = pre ++ (k ++ post) := by
  induction keys with
  | nil => cases hk
  | cons a rest ih =>
    rcases List.mem_cons.mp hk with rfl | hk'
    · cases rest with
      | nil => exact ⟨"'", "'", rfl⟩
      | cons b t =>
        refine ⟨"'", "'" ++ (", " ++ commaJoin ((b :: t).map pyStrRepr)), ?_⟩
        simp only [List.map_cons, commaJoin, pyStrRepr, String.append_assoc]
    · obtain ⟨pre, post, hpp⟩ := ih hk'
      cases rest with
      | nil => cases hk'
      | cons b t =>
        refine ⟨pyStrRepr a ++ (", " ++ pre), post, ?_⟩
        simp only [List.map_cons] at hpp
        simp only [List.map_cons, commaJoin, hpp, String.append_assoc]

theorem invalidEnvDetail_mentions (env : String) (keys : List String) (k : String)
    (hk : k ∈ keys) :
    ∃ pre post, invalidEnvDetail env keys = pre ++ (k ++ post) := by
  obtain ⟨pre, post, hpp⟩ := commaJoin_mem keys k hk
  refine ⟨("Invalid environment '" ++ env ++ "'. Valid environments: " ++ "[") ++ pre,
    post ++ "]", ?_⟩
  simp only [invalidEnvDetail, pyStrListRepr, hpp, String.append_assoc]

/-- C6: a standalone Infrastructure-create for an existing application with
an environment that is not a key of the persisted environments mapping
fails 400, the error detail enumerates every valid environment name, the
state is unchanged, and environment validity is exactly key membership of
the persisted structure (not a hardcoded list). -/
theorem claim_C6 (st : AppState) (ireq : InfrastructureRequest) (app : Application)
    (happ : find_app_by_id_or_name st.applications ireq.applicationName = some app)
    (henv : envHasKey st.environments ireq.environment = false) :
    create_infrastructure_details st ireq =
      (.error ⟨400, invalidEnvDetail ireq.environment (envKeys st.environments)⟩, st) ∧
    (∀ k ∈ envKeys st.environments, ∃ pre post,
      invalidEnvDetail ireq.environment (envKeys st.environments) = pre ++ (k ++ post)) ∧
    (∀ e, envHasKey st.environments e = true ↔ e ∈ envKeys st.environments) := by
  refine ⟨?_, fun k hk => invalidEnvDetail_mentions _ _ k hk, fun e => envHasKey_iff _ e⟩
  simp [create_infrastructure_details, happ, henv]

/-- C6 witness: requesting environment `qa` against the sample state (whose
keys are production and staging) fails 400 with both names enumerated in
the message, without touching storage. -/
theorem claim_C6_witness :
    create_infrastructure_details sampleState (mkInfraRequest "alpha" "qa") =
      (.error ⟨400, invalidEnvDetail "qa" (envKeys sampleState.environments)⟩, sampleState) ∧
    (∀ k ∈ envKeys sampleState.environments, ∃ pre post,
      invalidEnvDetail "qa" (envKeys sampleState.environments) = pre ++ (k ++ post)) ∧
    (∀ e, envHasKey sampleState.environments e = true ↔ e ∈ envKeys sampleState.environments) :=
  claim_C6 sampleState (mkInfraRequest "alpha" "qa") (mkApp "app-001" "alpha") rfl rfl

/-! ## Facts about the decimal-digit model -/

theorem decDigitChar_isDigit {d : Nat} (h : d < 10) : (decDigitChar d).isDigit = true := by
  interval_cases d <;> decide

theorem decDigitChar_toNat {d : Nat} (h : d < 10) : (decDigitChar d).toNat - 48 = d := by
  interval_cases d <;> decide

theorem isDigit_ne_underscore {c : Char} (h : c.isDigit = true) : c ≠ '_' := by
  intro hc
  subst hc
  exact absurd h (by decide)

theorem isDigit_ne_dash {c : Char} (h : c.isDigit = true) : c ≠ '-' := by
  intro hc
  subst hc
  exact absurd h (by decide)

theorem isDigit_ne_plus {c : Char} (h : c.isDigit = true) : c ≠ '+' := by
  intro hc
  subst hc
  exact absurd h (by decide)

theorem isDigit_not_ws {c : Char} (h : c.isDigit = true) : c.isWhitespace = false := by
  cases hw : c.isWhitespace with
  | false => rfl
  | true =>
    exfalso
    have hw' : c = ' ' ∨ c = '\t' ∨ c = '\r' ∨ c = '\n' := by
      simpa [Char.isWhitespace, or_assoc] using hw
    rcases hw' with rfl | rfl | rfl | rfl <;> exact absurd h (by decide)

theorem toDecCharsAux_eq (fuel : Nat) : ∀ n : Nat, n ≤ fuel →
    toDecCharsAux fuel n = ((Nat.digits 10 n).map decDigitChar).reverse := by
  induction fuel with
  | zero =>
    intro n hn
    interval_cases n
    simp [toDecCharsAux]
  | succ f ih =>
    intro n hn
    cases n with
    | zero => simp [toDecCharsAux]
    | succ m =>
      rw [toDecCharsAux]
      have hlt : (m + 1) / 10 < m + 1 := Nat.div_lt_self (Nat.succ_pos m) (by norm_num)
      rw [ih ((m + 1) / 10) (by omega)]
      rw [Nat.digits_def' (by norm_num : (1:Nat) < 10) (Nat.succ_pos m)]
      simp

theorem toDecChars_ne_nil (n : Nat) : toDecChars n ≠ [] := by
  unfold toDecChars
  by_cases hn : n = 0
  · simp [hn]
  · rw [if_neg hn, toDecCharsAux_eq n n (le_refl n)]
    simp [Nat.digits_ne_nil_iff_ne_zero.mpr hn]

theorem mem_toDecChars_isDigit {c : Char} {n : Nat} (hc : c ∈ toDecChars n) :
    c.isDigit = true := by
  unfold toDecChars at hc
  by_cases hn : n = 0
  · rw [if_pos hn] at hc
    simp at hc
    subst hc
    decide
  · rw [if_neg hn, toDecCharsAux_eq n n (le_refl n)] at hc
    rw [List.mem_reverse, List.mem_map] at hc
    obtain ⟨d, hd, rfl⟩ := hc
    exact decDigitChar_isDigit (Nat.digits_lt_base (by norm_num) hd)

theorem foldl_digits (ds : List Nat) : ∀ a : Nat, (∀ d ∈ ds, d < 10) →
    ((ds.map decDigitChar).reverse).foldl (fun n c => 10 * n + (c.toNat - 48)) a
      = a * 10 ^ ds.length + Nat.ofDigits 10 ds := by
  induction ds with
  | nil => intro a _; simp
  | cons d t ih =>
    intro a hd
    simp only [List.map_cons, List.reverse_cons]
    rw [List.foldl_append]
    rw [ih a (fun x hx => hd x (List.mem_cons_of_mem _ hx))]
    simp only [List.foldl_cons, List.foldl_nil]
    rw [decDigitChar_toNat (hd d (List.mem_cons_self _ _))]
    rw [Nat.ofDigits_cons]
    simp only [List.length_cons, pow_succ]
    ring

theorem foldl_replicate_zero (p : Nat) :
    (List.replicate p '0').foldl (fun n c => 10 * n + (c.toNat - 48)) 0 = 0 := by
  induction p with
  | zero => rfl
  | succ q ih => simpa [List.replicate_succ] using ih

theorem pyUIntVal_pad (p n : Nat) :
    pyUIntVal (List.replicate p '0' ++ toDecChars n) = n := by
  unfold pyUIntVal
  have hfilter : (List.replicate p '0' ++ toDecChars n).filter (· ≠ '_') =
      List.replicate p '0' ++ toDecChars n := by
    apply List.filter_eq_self.mpr
    intro c hc
    rcases List.mem_append.mp hc with hrep | hdec
    · have : c = '0' := List.eq_of_mem_replicate hrep
      subst this
      decide
    · simpa using isDigit_ne_underscore (mem_toDecChars_isDigit hdec)
  rw [hfilter, List.foldl_append, foldl_replicate_zero]
  unfold toDecChars
  by_cases hn : n = 0
  · simp [hn]
  · rw [if_neg hn, toDecCharsAux_eq n n (le_refl n)]
    rw [foldl_digits _ 0 (fun d hd => Nat.digits_lt_base (by norm_num) hd)]
    simp [Nat.ofDigits_digits]

theorem pyDigitsTail_of_digits {l : List Char} (h : ∀ c ∈ l, c.isDigit = true) :
    pyDigitsTail l = true := by
  induction l with
  | nil => rfl
  | cons c t ih =>
    have hc := h c (List.mem_cons_self _ _)
    have hne : ¬ c = '_' := isDigit_ne_underscore hc
    rw [pyDigitsTail.eq_def]
    simp only [hne, if_false, hc, Bool.true_and]
    exact ih (fun x hx => h x (List.mem_cons_of_mem _ hx))

theorem pyDigitsOk_of_digits {l : List Char} (hne : l ≠ [])
    (h : ∀ c ∈ l, c.isDigit = true) : pyDigitsOk l = true := by
  cases l with
  | nil => exact absurd rfl hne
  | cons c t =>
    rw [pyDigitsOk]
    simp [h c (List.mem_cons_self _ _),
      pyDigitsTail_of_digits (fun x hx => h x (List.mem_cons_of_mem _ hx))]

theorem dropWhile_eq_self_of {l : List Char} (h : ∀ c ∈ l, c.isWhitespace = false) :
    l.dropWhile Char.isWhitespace = l := by
  cases l with
  | nil => rfl
  | cons c t =>
    rw [List.dropWhile_cons]
    simp [h c (List.mem_cons_self _ _)]

theorem trimWS_eq_self {l : List Char} (h : ∀ c ∈ l, c.isWhitespace = false) :
    trimWS l = l := by
  unfold trimWS
  rw [dropWhile_eq_self_of h]
  rw [dropWhile_eq_self_of (fun c hc => h c (List.mem_reverse.mp hc))]
  exact List.reverse_reverse l

theorem pyInt_pad (p n : Nat) :
    pyInt (List.replicate p '0' ++ toDecChars n) = some (n : Int) := by
  have hdig : ∀ c ∈ List.replicate p '0' ++ toDecChars n, c.isDigit = true := by
    intro c hc
    rcases List.mem_append.mp hc with hrep | hdec
    · have : c = '0' := List.eq_of_mem_replicate hrep
      subst this
      decide
    · exact mem_toDecChars_isDigit hdec
  have hne : List.replicate p '0' ++ toDecChars n ≠ [] := by
    simp [toDecChars_ne_nil n]
  unfold pyInt
  rw [trimWS_eq_self (fun c hc => isDigit_not_ws (hdig c hc))]
  cases hl : List.replicate p '0' ++ toDecChars n with
  | nil => exact absurd hl hne
  | cons c t =>
    have hc : c.isDigit = true := hdig c (by rw [hl]; exact List.mem_cons_self _ _)
    have hplus : ¬ c = '+' := isDigit_ne_plus hc
    have hdash : ¬ c = '-' := isDigit_ne_dash hc
    have hok : pyDigitsOk (c :: t) = true := by
      rw [← hl]
      exact pyDigitsOk_of_digits hne hdig
    have hval : pyUIntVal (c :: t) = n := by
      rw [← hl]
      exact pyUIntVal_pad p n
    simp [hplus, hdash, hok, hval]

/-! ## Facts about `splitDash` and `idCandidate` -/

theorem splitDashCore_no_dash {l : List Char} (h : '-' ∉ l) : splitDashCore l = (l, []) := by
  induction l with
  | nil => rfl
  | cons c t ih =>
    have hc : ¬ c = '-' := fun hcc => h (hcc ▸ List.mem_cons_self _ _)
    rw [splitDashCore, if_neg hc, ih (fun ht => h (List.mem_cons_of_mem _ ht))]

theorem splitDashCore_append {A B : List Char} (h : '-' ∉ A) :
    splitDashCore (A ++ B) = (A ++ (splitDashCore B).1, (splitDashCore B).2) := by
  induction A with
  | nil => simp
  | cons c t ih =>
    have hc : ¬ c = '-' := fun hcc => h (hcc ▸ List.mem_cons_self _ _)
    rw [List.cons_append, splitDashCore, if_neg hc,
      ih (fun ht => h (List.mem_cons_of_mem _ ht))]
    simp

theorem splitDash_app_head (s : List Char) :
    splitDash ("app-".data ++ s) = "app".data :: splitDash s := by
  show splitDash (['a', 'p', 'p', '-'] ++ s) = _
  have h2 : (['a', 'p', 'p', '-'] ++ s) = ['a', 'p', 'p'] ++ ('-' :: s) := by simp
  rw [h2]
  unfold splitDash
  rw [splitDashCore_append (by decide)]
  rw [show splitDashCore ('-' :: s) = ([], (splitDashCore s).1 :: (splitDashCore s).2) from by
    rw [splitDashCore]; simp]
  simp

theorem idCandidate_generated (m : Int) (h : 0 ≤ m) :
    idCandidate ("app-" ++ py03d (m + 1)) = some (m + 1) := by
  have hchars : py03dChars (m + 1) =
      List.replicate (3 - (toDecChars (m + 1).natAbs).length) '0' ++
        toDecChars (m + 1).natAbs := by
    unfold py03dChars
    rw [if_neg (by omega : ¬ m + 1 < 0)]
    simp
  have hnodash : '-' ∉ py03dChars (m + 1) := by
    rw [hchars]
    intro hmem
    rcases List.mem_append.mp hmem with hrep | hdec
    · have : '-' = '0' := List.eq_of_mem_replicate hrep
      exact absurd this (by decide)
    · exact absurd rfl (isDigit_ne_dash (mem_toDecChars_isDigit hdec))
  have hdata : ("app-" ++ py03d (m + 1)).data = "app-".data ++ py03dChars (m + 1) := by
    rw [String.data_append]
    rfl
  unfold idCandidate
  rw [if_pos (by
    rw [hdata]
    exact List.isPrefixOf_iff_prefix.mpr (List.prefix_append _ _))]
  have hsplit : splitDash (py03dChars (m + 1)) = [py03dChars (m + 1)] := by
    unfold splitDash
    rw [splitDashCore_no_dash hnodash]
  rw [show ("app-" ++ py03d (m + 1)).data = "app-".data ++ py03dChars (m + 1) from hdata]
  rw [splitDash_app_head, hsplit]
  show pyInt (py03dChars (m + 1)) = some (m + 1)
  rw [hchars, pyInt_pad]
  congr 1
  exact Int.natAbs_of_nonneg (by omega)

/-! ## Facts about the `max_id` scan -/

theorem maxIdFold_ge_acc (l : List Application) : ∀ acc : Int, acc ≤ maxIdFold acc l := by
  induction l with
  | nil => intro acc; exact le_refl acc
  | cons a t ih =>
    intro acc
    rw [maxIdFold, List.foldl_cons]
    cases hc : idCandidate a.id with
    | none => exact ih acc
    | some v => exact le_trans (le_max_left acc v) (ih (max acc v))

theorem maxIdFold_ge_mem {l : List Application} {a : Application} (ha : a ∈ l)
    {v : Int} (hv : idCandidate a.id = some v) : ∀ acc : Int, v ≤ maxIdFold acc l := by
  induction l with
  | nil => cases ha
  | cons b t ih =>
    intro acc
    rw [maxIdFold, List.foldl_cons]
    rcases List.mem_cons.mp ha with rfl | ha'
    · rw [hv]
      exact le_trans (le_max_right acc v) (maxIdFold_ge_acc t (max acc v))
    · cases hc : idCandidate b.id with
      | none => exact ih ha' acc
      | some w => exact ih ha' (max acc w)

theorem maxIdFold_append (acc : Int) (l1 l2 : List Application) :
    maxIdFold acc (l1 ++ l2) = maxIdFold (maxIdFold acc l1) l2 := by
  unfold maxIdFold
  rw [List.foldl_append]

theorem generate_next_id_eq (applications : List Application) :
    generate_next_id applications = "app-" ++ py03d (maxIdFold 0 applications + 1) := by
  unfold generate_next_id
  cases he : applications.isEmpty with
  | true =>
    have : applications = [] := List.isEmpty_iff.mp he
    subst this
    show "app-001" = "app-" ++ py03d (maxIdFold 0 [] + 1)
    decide
  | false => rfl

/-- The generated identifier is fresh: it is not the id of any stored
application. -/
theorem generate_next_id_fresh (applications : List Application) :
    generate_next_id applications ∉ applications.map Application.id := by
  rw [generate_next_id_eq]
  intro hmem
  obtain ⟨a, ha, hid⟩ := List.mem_map.mp hmem
  have h0 : (0 : Int) ≤ maxIdFold 0 applications := maxIdFold_ge_acc applications 0
  have hcand : idCandidate a.id = some (maxIdFold 0 applications + 1) := by
    rw [hid]
    exact idCandidate_generated _ h0
  have hle := maxIdFold_ge_mem ha hcand 0
  omega

/-! ## Sequential-identifier invariant for collections built from empty -/


theorem sequentialIds_nil : sequentialIds [] := ⟨rfl, rfl⟩


theorem create_application_some {apps : List Application} {req : ApplicationRequest}
    {a : Application} (hf : find_app_by_id_or_name apps req.applicationName = some a) :
    create_application apps req =
      (.error ⟨409, "Application '" ++ req.applicationName ++ "' already exists"⟩, apps) := by
  unfold create_application
  rw [hf]

theorem create_application_none {apps : List Application} {req : ApplicationRequest}
    (hf : find_app_by_id_or_name apps req.applicationName = none) :
    create_application apps req = (.ok (newApp apps req), apps ++ [newApp apps req]) := by
  unfold create_application
  rw [hf]
  rfl

theorem sequentialIds_step (apps : List Application) (req : ApplicationRequest)
    (h : sequentialIds apps) : sequentialIds (create_application apps req).2 := by
  obtain ⟨hids, hmax⟩ := h
  cases hf : find_app_by_id_or_name apps req.applicationName with
  | some a =>
    rw [create_application_some hf]
    exact ⟨hids, hmax⟩
  | none =>
    rw [create_application_none hf]
    have hcand : idCandidate (generate_next_id apps) = some ((apps.length : Int) + 1) := by
      rw [generate_next_id_eq, hmax]
      exact idCandidate_generated _ (by positivity)
    have hlen : (apps ++ [newApp apps req]).length = apps.length + 1 := by simp
    constructor
    · show (apps ++ [newApp apps req]).map Application.id = _
      rw [List.map_append]
      rw [show [newApp apps req].map Application.id = [generate_next_id apps] from rfl]
      rw [hids, hlen, List.range_succ, List.map_append]
      rw [generate_next_id_eq, hmax]
      norm_cast
    · show maxIdFold 0 (apps ++ [newApp apps req]) = _
      have h1 : maxIdFold ((apps.length : Int)) [newApp apps req] =
          max ((apps.length : Int)) ((apps.length : Int) + 1) := by
        have hcand' : idCandidate (newApp apps req).id = some ((apps.length : Int) + 1) := hcand
        simp [maxIdFold, hcand']
      rw [maxIdFold_append, hmax, h1, hlen,
        max_eq_right (by omega : (apps.length : Int) ≤ (apps.length : Int) + 1)]
      push_cast
      ring

theorem sequentialIds_run (reqs : List ApplicationRequest) :
    ∀ start : List Application, sequentialIds start → sequentialIds (runCreates start reqs) := by
  induction reqs with
  | nil => intro start h; exact h
  | cons r rs ih =>
    intro start h
    have : runCreates start (r :: rs) = runCreates (create_application start r).2 rs := by
      unfold runCreates
      rw [List.foldl_cons]
    rw [this]
    exact ih _ (sequentialIds_step start r h)

theorem foldr_max_nonneg (l : List Int) : 0 ≤ l.foldr max 0 := by
  induction l with
  | nil => exact le_refl 0
  | cons v t ih => exact le_trans ih (le_max_right v _)

theorem maxIdFold_eq_foldr (l : List Application) : ∀ acc : Int, 0 ≤ acc →
    maxIdFold acc l = max acc ((l.filterMap (fun a => idCandidate a.id)).foldr max 0) := by
  induction l with
  | nil =>
    intro acc hacc
    simp [maxIdFold, max_eq_left hacc]
  | cons a t ih =>
    intro acc hacc
    rw [maxIdFold, List.foldl_cons, List.filterMap_cons]
    cases hc : idCandidate a.id with
    | none => exact ih acc hacc
    | some v =>
      rw [show List.foldl (fun m a => match idCandidate a.id with
          | some num => max m num
          | none => m) (max acc v) t = maxIdFold (max acc v) t from rfl]
      rw [ih (max acc v) (le_trans hacc (le_max_left acc v))]
      rw [List.foldr_cons]
      rw [max_assoc]

/-! ## Claim C3 (corrected) -/

/-- C3 counterexample: with records `app-001` and `app-2-7`, the code takes
the segment between the first and second dash of `app-2-7` (that is, `2`)
into the maximum and returns `app-003`, while the claimed algorithm (only
identifiers of the form `app-` + digits count) yields `app-002`. -/
theorem claim_C3_counterexample :
    generate_next_id [mkApp "app-001" "alpha", mkApp "app-2-7" "beta"] = "app-003" ∧
    specNextId [mkApp "app-001" "alpha", mkApp "app-2-7" "beta"] = "app-002" ∧
    ("app-003" : String) ≠ "app-002" := by
  refine ⟨by decide, by decide, by decide⟩

/-- C3 amended: the identifier service returns `app-` followed by (the
maximum, over identifiers starting with `app-`, of the Python-int value of
the segment between the first and second dash, unparseable segments
skipped) plus one, zero-padded to 3 digits; `app-001` for an empty
collection; consequently creates from an empty collection assign exactly
the identifiers `app-001`, `app-002`, … in order. -/
theorem claim_C3 :
    (∀ applications : List Application, generate_next_id applications =
      if applications.isEmpty then "app-001"
      else "app-" ++ py03d
        (((applications.filterMap (fun a => idCandidate a.id)).foldr max 0) + 1)) ∧
    generate_next_id [] = "app-001" ∧
    (∀ reqs : List ApplicationRequest,
      (runCreates [] reqs).map Application.id =
        (List.range (runCreates [] reqs).length).map (fun i => "app-" ++ py03d (i + 1 : Nat))) := by
  refine ⟨?_, rfl, fun reqs => (sequentialIds_run reqs [] sequentialIds_nil).1⟩
  intro applications
  cases he : applications.isEmpty with
  | true =>
    have : applications = [] := List.isEmpty_iff.mp he
    subst this
    rfl
  | false =>
    rw [if_neg (by simp)]
    rw [generate_next_id_eq]
    rw [maxIdFold_eq_foldr applications 0 (le_refl 0)]
    rw [max_eq_right (foldr_max_nonneg _)]

/-! ## Claim C4 (corrected) -/

theorem matchesId_iff {α : Type} [HasIdName α] (s : String) (a : α) :
    matchesId s a = true ↔ HasIdName.recId a = s ∨ HasIdName.recName a = s := by
  simp [matchesId]

theorem find_eq_none_iff {α : Type} [HasIdName α] (l : List α) (s : String) :
    find_app_by_id_or_name l s = none ↔
      ∀ a ∈ l, ¬ (HasIdName.recId a = s ∨ HasIdName.recName a = s) := by
  rw [find_eq_find?, List.find?_eq_none]
  constructor
  · intro h a ha hor
    exact h a ha ((matchesId_iff s a).mpr hor)
  · intro h a ha hb
    exact h a ha ((matchesId_iff s a).mp hb)

/-- C4 counterexample: a create request whose `applicationName` equals the
*id* of an existing application (here `app-001`, whose name is `alpha`) is
rejected with Conflict although no application has that name, because the
uniqueness check matches by id or name. -/
theorem claim_C4_counterexample :
    (create_application [mkApp "app-001" "alpha"] (mkAppRequest "app-001")).1 =
      .error ⟨409, "Application 'app-001' already exists"⟩ ∧
    (∀ a ∈ [mkApp "app-001" "alpha"], a.applicationName ≠ "app-001") := by
  refine ⟨by decide, by decide⟩

/-- C4 amended: create fails 409 Conflict exactly when some existing
record's id *or* name equals the request's `applicationName` (leaving the
collection unchanged); otherwise it assigns the generated identifier —
which is fresh — copies every request field verbatim, appends the record
at the end, and returns it. -/
theorem claim_C4 (apps : List Application) (req : ApplicationRequest) :
    ((∃ a ∈ apps, a.id = req.applicationName ∨ a.applicationName = req.applicationName) →
      create_application apps req =
        (.error ⟨409, "Application '" ++ req.applicationName ++ "' already exists"⟩, apps)) ∧
    ((∀ a ∈ apps, a.id ≠ req.applicationName ∧ a.applicationName ≠ req.applicationName) →
      ∃ new_app : Application,
        create_application apps req = (.ok new_app, apps ++ [new_app]) ∧
        new_app.id = generate_next_id apps ∧
        new_app.id ∉ apps.map Application.id ∧
        new_app.applicationName = req.applicationName ∧
        new_app.displayName = req.displayName ∧
        new_app.type = req.type ∧
        new_app.description = req.description ∧
        new_app.version = req.version ∧
        new_app.status = req.status ∧
        new_app.owner = req.owner ∧
        new_app.maintainer = req.maintainer ∧
        new_app.tags = req.tags) := by
  constructor
  · rintro ⟨a, ha, hor⟩
    cases hf : find_app_by_id_or_name apps req.applicationName with
    | some b => exact create_application_some hf
    | none => exact absurd hor ((find_eq_none_iff apps req.applicationName).mp hf a ha)
  · intro hall
    have hf : find_app_by_id_or_name apps req.applicationName = none :=
      (find_eq_none_iff apps req.applicationName).mpr
        (fun a ha hor => hor.elim (hall a ha).1 (hall a ha).2)
    exact ⟨newApp apps req, create_application_none hf, rfl,
      generate_next_id_fresh apps, rfl, rfl, rfl, rfl, rfl, rfl, rfl, rfl, rfl⟩

/-- C4 witness: on a collection whose only record is `app-001`/`alpha`, the
non-conflicting request `beta` is created with all fields copied and a
fresh id appended at the end. -/
theorem claim_C4_witness :
    ∃ new_app : Application,
      create_application [mkApp "app-001" "alpha"] (mkAppRequest "beta") =
        (.ok new_app, [mkApp "app-001" "alpha"] ++ [new_app]) ∧
      new_app.id = generate_next_id [mkApp "app-001" "alpha"] ∧
      new_app.id ∉ [mkApp "app-001" "alpha"].map Application.id ∧
      new_app.applicationName = (mkAppRequest "beta").applicationName ∧
      new_app.displayName = (mkAppRequest "beta").displayName ∧
      new_app.type = (mkAppRequest "beta").type ∧
      new_app.description = (mkAppRequest "beta").description ∧
      new_app.version = (mkAppRequest "beta").version ∧
      new_app.status = (mkAppRequest "beta").status ∧
      new_app.owner = (mkAppRequest "beta").owner ∧
      new_app.maintainer = (mkAppRequest "beta").maintainer ∧
      new_app.tags = (mkAppRequest "beta").tags :=
  (claim_C4 [mkApp "app-001" "alpha"] (mkAppRequest "beta")).2 (by decide)

/-! ## Step view of the infrastructure loop -/



theorem processInfra_cons (appId application_name : String) (envs : EnvMap)
    (r : InfrastructureRequest) (rs : List InfrastructureRequest) :
    processInfra appId application_name envs (r :: rs) =
      ((processInfra appId application_name (stepEnvs appId application_name envs r) rs).1,
        stepItem appId application_name envs r ::
          (processInfra appId application_name
            (stepEnvs appId application_name envs r) rs).2) := by
  cases henv : envHasKey envs r.environment with
  | false =>
    simp only [processInfra, stepItem, stepEnvs, henv, Bool.false_eq_true, if_false]
  | true =>
    cases hf : find_app_by_id_or_name (envLookup envs r.environment) application_name with
    | some x =>
      simp only [processInfra, stepItem, stepEnvs, henv, if_true, hf]
    | none =>
      simp only [processInfra, stepItem, stepEnvs, henv, if_true, hf]

theorem processInfra_nil (appId application_name : String) (envs : EnvMap) :
    processInfra appId application_name envs [] = (envs, []) := rfl

theorem processInfra_length (appId application_name : String) :
    ∀ (reqs : List InfrastructureRequest) (envs : EnvMap),
      (processInfra appId application_name envs reqs).2.length = reqs.length := by
  intro reqs
  induction reqs with
  | nil => intro envs; rfl
  | cons r rs ih =>
    intro envs
    rw [processInfra_cons]
    simp [ih]

theorem stepEnvs_keys (appId application_name : String) (envs : EnvMap)
    (r : InfrastructureRequest) :
    envKeys (stepEnvs appId application_name envs r) = envKeys envs := by
  unfold stepEnvs
  cases henv : envHasKey envs r.environment with
  | false => simp
  | true =>
    cases hf : find_app_by_id_or_name (envLookup envs r.environment) application_name with
    | some x => simp [hf]
    | none => simp [hf, envKeys_envAppend]

theorem processInfra_keys (appId application_name : String) :
    ∀ (reqs : List InfrastructureRequest) (envs : EnvMap),
      envKeys ((processInfra appId application_name envs reqs).1) = envKeys envs := by
  intro reqs
  induction reqs with
  | nil => intro envs; rfl
  | cons r rs ih =>
    intro envs
    rw [processInfra_cons]
    exact (ih _).trans (stepEnvs_keys _ _ _ _)

theorem processInfra_get? (appId application_name : String) :
    ∀ (reqs : List InfrastructureRequest) (envs : EnvMap) (i : Nat)
      (r : InfrastructureRequest), reqs.get? i = some r →
      (processInfra appId application_name envs reqs).2.get? i =
        some (stepItem appId application_name
          ((processInfra appId application_name envs (reqs.take i)).1) r) := by
  intro reqs
  induction reqs with
  | nil => intro envs i r hr; cases hr
  | cons r0 rs ih =>
    intro envs i r hr
    cases i with
    | zero =>
      have : r = r0 := by
        simpa using hr.symm
      subst this
      rw [processInfra_cons]
      rfl
    | succ j =>
      have hr' : rs.get? j = some r := by simpa using hr
      rw [processInfra_cons]
      have htake : (r0 :: rs).take (j + 1) = r0 :: rs.take j := rfl
      rw [htake, processInfra_cons]
      simpa using ih (stepEnvs appId application_name envs r0) j r hr'

/-! ## Onboard unfolding and payload lemmas -/

theorem onboard_none {st : AppState} {application_name : String}
    (happ : find_app_by_id_or_name st.applications application_name = none)
    (d : DevOpsRequest) (reqs : List InfrastructureRequest) (dOk iOk : Bool) :
    onboard_application_details st application_name d reqs dOk iOk =
      (.error ⟨404, "Application not found"⟩, st, []) := by
  unfold onboard_application_details
  rw [happ]

theorem onboard_some_true {st : AppState} {application_name : String} {app : Application}
    (happ : find_app_by_id_or_name st.applications application_name = some app)
    (d : DevOpsRequest) (reqs : List InfrastructureRequest) (dOk : Bool) :
    onboard_application_details st application_name d reqs dOk true =
      (.ok (.completed application_name
          ⟨(onboardDevOpsStep app application_name d st.devops dOk).1,
            (processInfra app.id application_name st.environments reqs).2⟩),
        ⟨st.applications, (onboardDevOpsStep app application_name d st.devops dOk).2.1,
          (processInfra app.id application_name st.environments reqs).1⟩,
        (onboardDevOpsStep app application_name d st.devops dOk).2.2 ++
          [.infraSave (processInfra app.id application_name st.environments reqs).1 true]) := by
  unfold onboard_application_details
  rw [happ]
  rfl

theorem onboard_some_false {st : AppState} {application_name : String} {app : Application}
    (happ : find_app_by_id_or_name st.applications application_name = some app)
    (d : DevOpsRequest) (reqs : List InfrastructureRequest) (dOk : Bool) :
    onboard_application_details st application_name d reqs dOk false =
      (.ok (.infraSaveFailed (saveErrorDetail "infrastructure_details.json")
          ⟨(onboardDevOpsStep app application_name d st.devops dOk).1,
            (processInfra app.id application_name st.environments reqs).2⟩),
        ⟨st.applications, (onboardDevOpsStep app application_name d st.devops dOk).2.1,
          st.environments⟩,
        (onboardDevOpsStep app application_name d st.devops dOk).2.2 ++
          [.infraSave (processInfra app.id application_name st.environments reqs).1 false]) := by
  unfold onboard_application_details
  rw [happ]
  rfl

theorem onboardDevOpsStep_exists {app : Application} {application_name : String}
    {devops : List DevOpsRecord} {x : DevOpsRecord}
    (hf : find_app_by_id_or_name devops application_name = some x)
    (d : DevOpsRequest) (saveOk : Bool) :
    onboardDevOpsStep app application_name d devops saveOk =
      (⟨"exists", some "DevOps details already exist", none⟩, devops, []) := by
  unfold onboardDevOpsStep
  rw [hf]

theorem onboardDevOpsStep_filter (app : Application) (application_name : String)
    (d : DevOpsRequest) (devops : List DevOpsRecord) (saveOk : Bool) :
    ((onboardDevOpsStep app application_name d devops saveOk).2.2).filter
      SaveEvent.isInfraSave = [] := by
  unfold onboardDevOpsStep
  cases hf : find_app_by_id_or_name devops application_name with
  | some x => rfl
  | none => cases saveOk <;> simp [SaveEvent.isInfraSave]

theorem onboardDevOpsStep_data (app : Application) (application_name : String)
    (d : DevOpsRequest) (devops : List DevOpsRecord) (saveOk : Bool) :
    ∀ rec, (onboardDevOpsStep app application_name d devops saveOk).1.data = some rec →
      rec = mkDevOpsRecord app.id application_name d := by
  intro rec h
  unfold onboardDevOpsStep at h
  cases hf : find_app_by_id_or_name devops application_name with
  | some x =>
    rw [hf] at h
    simp at h
  | none =>
    rw [hf] at h
    cases saveOk with
    | true =>
      simp at h
      exact h.symm
    | false =>
      simp at h

theorem processInfra_data (appId application_name : String) :
    ∀ (reqs : List InfrastructureRequest) (envs : EnvMap) (item : ItemResult),
      item ∈ (processInfra appId application_name envs reqs).2 →
      ∀ rec, item.data = some rec →
        rec.id = appId ∧ rec.applicationName = application_name := by
  intro reqs
  induction reqs with
  | nil => intro envs item hmem; cases hmem
  | cons r rs ih =>
    intro envs item hmem rec hdata
    rw [processInfra_cons] at hmem
    rcases List.mem_cons.mp hmem with rfl | hmem'
    · unfold stepItem at hdata
      cases henv : envHasKey envs r.environment with
      | false =>
        rw [henv] at hdata
        simp [invalidEnvItem] at hdata
      | true =>
        rw [henv] at hdata
        cases hf : find_app_by_id_or_name (envLookup envs r.environment) application_name with
        | some x =>
          rw [hf] at hdata
          simp [existsItem] at hdata
        | none =>
          rw [hf] at hdata
          simp [createdItem] at hdata
          subst hdata
          exact ⟨rfl, rfl⟩
    · exact ih _ item hmem' rec hdata

theorem processInfra_item_spec (appId application_name : String) (envs : EnvMap)
    (reqs : List InfrastructureRequest) (i : Nat) (r : InfrastructureRequest)
    (hr : reqs.get? i = some r) :
    (processInfra appId application_name envs reqs).2.get? i =
      some (stepItem appId application_name
        ((processInfra appId application_name envs (reqs.take i)).1) r) ∧
    (envHasKey envs r.environment = false →
      (processInfra appId application_name envs reqs).2.get? i =
        some (invalidEnvItem r.environment)) ∧
    (envHasKey envs r.environment = true →
      (find_app_by_id_or_name
          (envLookup ((processInfra appId application_name envs (reqs.take i)).1) r.environment)
          application_name ≠ none →
        (processInfra appId application_name envs reqs).2.get? i =
          some (existsItem r.environment)) ∧
      (find_app_by_id_or_name
          (envLookup ((processInfra appId application_name envs (reqs.take i)).1) r.environment)
          application_name = none →
        (processInfra appId application_name envs reqs).2.get? i =
          some (createdItem r.environment (mkInfraRecord appId application_name r)))) := by
  have hget := processInfra_get? appId application_name reqs envs i r hr
  have hkeys : envHasKey ((processInfra appId application_name envs (reqs.take i)).1)
      r.environment = envHasKey envs r.environment :=
    envHasKey_congr (processInfra_keys appId application_name (reqs.take i) envs) r.environment
  refine ⟨hget, ?_, ?_⟩
  · intro hfalse
    rw [hget]
    simp only [stepItem, hkeys, hfalse, Bool.false_eq_true, if_false]
  · intro htrue
    constructor
    · intro hne
      rw [hget]
      cases hf : find_app_by_id_or_name
          (envLookup ((processInfra appId application_name envs (reqs.take i)).1) r.environment)
          application_name with
      | none => exact absurd hf hne
      | some x => simp only [stepItem, hkeys, htrue, if_true, hf]
    · intro hfnone
      rw [hget]
      simp only [stepItem, hkeys, htrue, if_true, hfnone]

/-! ## Claim C1 -/

/-- C1: onboarding an existing application yields one infrastructure
outcome per input request, aligned with input order, each request handled
independently against the in-memory document at its processing time: an
environment that is not a key of the environments mapping gives a per-item
`error` (and processing continues — every later item still gets its
outcome), an already-present (app, environment) record gives `exists`,
otherwise the record is created and reported `created`; a pre-existing
DevOps record gives devops outcome `exists` and the infrastructure results
are computed from the infra document alone, unaffected by it. -/
theorem claim_C1 (st : AppState) (application_name : String) (d : DevOpsRequest)
    (reqs : List InfrastructureRequest) (dOk iOk : Bool) {app : Application}
    (happ : find_app_by_id_or_name st.applications application_name = some app) :
    ∃ resp st' saves,
      onboard_application_details st application_name d reqs dOk iOk =
        (.ok resp, st', saves) ∧
      resp.results.infrastructure =
        (processInfra app.id application_name st.environments reqs).2 ∧
      resp.results.infrastructure.length = reqs.length ∧
      (∀ i r, reqs.get? i = some r →
        (envHasKey st.environments r.environment = false →
          resp.results.infrastructure.get? i = some (invalidEnvItem r.environment)) ∧
        (envHasKey st.environments r.environment = true →
          (find_app_by_id_or_name
              (envLookup ((processInfra app.id application_name st.environments
                (reqs.take i)).1) r.environment) application_name ≠ none →
            resp.results.infrastructure.get? i = some (existsItem r.environment)) ∧
          (find_app_by_id_or_name
              (envLookup ((processInfra app.id application_name st.environments
                (reqs.take i)).1) r.environment) application_name = none →
            resp.results.infrastructure.get? i =
              some (createdItem r.environment (mkInfraRecord app.id application_name r))))) ∧
      (find_app_by_id_or_name st.devops application_name ≠ none →
        resp.results.devops = ⟨"exists", some "DevOps details already exist", none⟩) := by
  have hdev : find_app_by_id_or_name st.devops application_name ≠ none →
      (onboardDevOpsStep app application_name d st.devops dOk).1 =
        ⟨"exists", some "DevOps details already exist", none⟩ := by
    intro hne
    cases hf : find_app_by_id_or_name st.devops application_name with
    | none => exact absurd hf hne
    | some x => rw [onboardDevOpsStep_exists hf]
  cases iOk with
  | true =>
    refine ⟨_, _, _, onboard_some_true happ d reqs dOk, rfl,
      processInfra_length _ _ _ _, ?_, hdev⟩
    intro i r hr
    obtain ⟨_, h2, h3⟩ := processInfra_item_spec app.id application_name st.environments
      reqs i r hr
    exact ⟨h2, h3⟩
  | false =>
    refine ⟨_, _, _, onboard_some_false happ d reqs dOk, rfl,
      processInfra_length _ _ _ _, ?_, hdev⟩
    intro i r hr
    obtain ⟨_, h2, h3⟩ := processInfra_item_spec app.id application_name st.environments
      reqs i r hr
    exact ⟨h2, h3⟩

/-- C1 witness: onboarding `alpha` (whose DevOps record already exists)
with one valid-new request (staging) and one invalid-environment request
(qa) yields the full per-item outcome sequence and devops `exists`. -/
theorem claim_C1_witness :
    ∃ resp st' saves,
      onboard_application_details sampleState "alpha" (mkDevOpsRequest "alpha")
        [mkInfraRequest "alpha" "staging", mkInfraRequest "alpha" "qa"] true true =
        (.ok resp, st', saves) ∧
      resp.results.infrastructure =
        (processInfra (mkApp "app-001" "alpha").id "alpha" sampleState.environments
          [mkInfraRequest "alpha" "staging", mkInfraRequest "alpha" "qa"]).2 ∧
      resp.results.infrastructure.length =
        [mkInfraRequest "alpha" "staging", mkInfraRequest "alpha" "qa"].length ∧
      (∀ i r, [mkInfraRequest "alpha" "staging", mkInfraRequest "alpha" "qa"].get? i = some r →
        (envHasKey sampleState.environments r.environment = false →
          resp.results.infrastructure.get? i = some (invalidEnvItem r.environment)) ∧
        (envHasKey sampleState.environments r.environment = true →
          (find_app_by_id_or_name
              (envLookup ((processInfra (mkApp "app-001" "alpha").id "alpha"
                sampleState.environments
                ([mkInfraRequest "alpha" "staging", mkInfraRequest "alpha" "qa"].take i)).1)
                r.environment) "alpha" ≠ none →
            resp.results.infrastructure.get? i = some (existsItem r.environment)) ∧
          (find_app_by_id_or_name
              (envLookup ((processInfra (mkApp "app-001" "alpha").id "alpha"
                sampleState.environments
                ([mkInfraRequest "alpha" "staging", mkInfraRequest "alpha" "qa"].take i)).1)
                r.environment) "alpha" = none →
            resp.results.infrastructure.get? i =
              some (createdItem r.environment
                (mkInfraRecord (mkApp "app-001" "alpha").id "alpha" r))))) ∧
      (find_app_by_id_or_name sampleState.devops "alpha" ≠ none →
        resp.results.devops = ⟨"exists", some "DevOps details already exist", none⟩) :=
  claim_C1 sampleState "alpha" (mkDevOpsRequest "alpha")
    [mkInfraRequest "alpha" "staging", mkInfraRequest "alpha" "qa"] true true rfl

/-! ## Claim C2 -/

/-- C2: onboarding an existing application attempts exactly one save of the
infrastructure document, whose content is the structure obtained after
processing *all* items (never a per-item save); when that single final save
fails the call still returns a normal (non-error) response — the
distinguished partial-success dict stating that DevOps changes were saved
but infrastructure changes were not — carrying the failure detail and the
same full per-item results a successful save would have returned, and the
persisted infrastructure document stays unchanged. -/
theorem claim_C2 (st : AppState) (application_name : String) (d : DevOpsRequest)
    (reqs : List InfrastructureRequest) (dOk iOk : Bool) {app : Application}
    (happ : find_app_by_id_or_name st.applications application_name = some app) :
    ∃ resp st' saves,
      onboard_application_details st application_name d reqs dOk iOk =
        (.ok resp, st', saves) ∧
      saves.filter SaveEvent.isInfraSave =
        [SaveEvent.infraSave (processInfra app.id application_name st.environments reqs).1
          iOk] ∧
      (iOk = true →
        st'.environments = (processInfra app.id application_name st.environments reqs).1) ∧
      (iOk = false →
        resp = .infraSaveFailed (saveErrorDetail "infrastructure_details.json")
          ⟨(onboardDevOpsStep app application_name d st.devops dOk).1,
            (processInfra app.id application_name st.environments reqs).2⟩ ∧
        resp.message = "Partial success - DevOps saved but infrastructure save failed" ∧
        st'.environments = st.environments ∧
        st'.devops = (onboardDevOpsStep app application_name d st.devops dOk).2.1 ∧
        resp.results.infrastructure.length = reqs.length) ∧
      (∀ respT stT savesT respF stF savesF,
        onboard_application_details st application_name d reqs dOk true =
          (.ok respT, stT, savesT) →
        onboard_application_details st application_name d reqs dOk false =
          (.ok respF, stF, savesF) →
        respT.results = respF.results) := by
  have hcross : ∀ (respT : OnboardResponse) stT savesT (respF : OnboardResponse) stF savesF,
      onboard_application_details st application_name d reqs dOk true =
        (.ok respT, stT, savesT) →
      onboard_application_details st application_name d reqs dOk false =
        (.ok respF, stF, savesF) →
      respT.results = respF.results := by
    intro respT stT savesT respF stF savesF hT hF
    rw [onboard_some_true happ d reqs dOk] at hT
    rw [onboard_some_false happ d reqs dOk] at hF
    simp only [Prod.mk.injEq, Except.ok.injEq] at hT hF
    rw [← hT.1, ← hF.1]
    rfl
  cases iOk with
  | true =>
    refine ⟨_, _, _, onboard_some_true happ d reqs dOk, ?_, fun _ => rfl, ?_, hcross⟩
    · rw [List.filter_append, onboardDevOpsStep_filter]
      rfl
    · intro h
      exact absurd h (by decide)
  | false =>
    refine ⟨_, _, _, onboard_some_false happ d reqs dOk, ?_, ?_, ?_, hcross⟩
    · rw [List.filter_append, onboardDevOpsStep_filter]
      rfl
    · intro h
      exact absurd h (by decide)
    · intro _
      exact ⟨rfl, rfl, rfl, rfl, processInfra_length _ _ _ _⟩

/-- C2 witness: with the final infrastructure save failing, onboarding
`alpha` returns the distinguished partial-success response with the full
per-item results, and exactly one infrastructure save was attempted with
the fully processed document. -/
theorem claim_C2_witness :
    ∃ resp st' saves,
      onboard_application_details sampleState "alpha" (mkDevOpsRequest "alpha")
        [mkInfraRequest "alpha" "staging", mkInfraRequest "alpha" "qa"] true false =
        (.ok resp, st', saves) ∧
      saves.filter SaveEvent.isInfraSave =
        [SaveEvent.infraSave (processInfra (mkApp "app-001" "alpha").id "alpha"
          sampleState.environments
          [mkInfraRequest "alpha" "staging", mkInfraRequest "alpha" "qa"]).1 false] ∧
      (false = true →
        st'.environments = (processInfra (mkApp "app-001" "alpha").id "alpha"
          sampleState.environments
          [mkInfraRequest "alpha" "staging", mkInfraRequest "alpha" "qa"]).1) ∧
      (false = false →
        resp = .infraSaveFailed (saveErrorDetail "infrastructure_details.json")
          ⟨(onboardDevOpsStep (mkApp "app-001" "alpha") "alpha" (mkDevOpsRequest "alpha")
              sampleState.devops true).1,
            (processInfra (mkApp "app-001" "alpha").id "alpha" sampleState.environments
              [mkInfraRequest "alpha" "staging", mkInfraRequest "alpha" "qa"]).2⟩ ∧
        resp.message = "Partial success - DevOps saved but infrastructure save failed" ∧
        st'.environments = sampleState.environments ∧
        st'.devops = (onboardDevOpsStep (mkApp "app-001" "alpha") "alpha"
          (mkDevOpsRequest "alpha") sampleState.devops true).2.1 ∧
        resp.results.infrastructure.length =
          [mkInfraRequest "alpha" "staging", mkInfraRequest "alpha" "qa"].length) ∧
      (∀ respT stT savesT respF stF savesF,
        onboard_application_details sampleState "alpha" (mkDevOpsRequest "alpha")
          [mkInfraRequest "alpha" "staging", mkInfraRequest "alpha" "qa"] true true =
          (.ok respT, stT, savesT) →
        onboard_application_details sampleState "alpha" (mkDevOpsRequest "alpha")
          [mkInfraRequest "alpha" "staging", mkInfraRequest "alpha" "qa"] true false =
          (.ok respF, stF, savesF) →
        respT.results = respF.results) :=
  claim_C2 sampleState "alpha" (mkDevOpsRequest "alpha")
    [mkInfraRequest "alpha" "staging", mkInfraRequest "alpha" "qa"] true false rfl

/-! ## Claim C10 -/



theorem mkDevOpsRecord_congr (appId application_name : String) {d1 d2 : DevOpsRequest}
    (h : d1.sameButName d2) :
    mkDevOpsRecord appId application_name d1 = mkDevOpsRecord appId application_name d2 := by
  obtain ⟨h1, h2, h3, h4⟩ := h
  simp [mkDevOpsRecord, h1, h2, h3, h4]

theorem onboardDevOpsStep_congr (app : Application) (application_name : String)
    (devops : List DevOpsRecord) (saveOk : Bool) {d1 d2 : DevOpsRequest}
    (h : d1.sameButName d2) :
    onboardDevOpsStep app application_name d1 devops saveOk =
      onboardDevOpsStep app application_name d2 devops saveOk := by
  unfold onboardDevOpsStep
  rw [mkDevOpsRecord_congr app.id application_name h]

theorem mkInfraRecord_congr (appId application_name : String) {r1 r2 : InfrastructureRequest}
    (h : r1.sameButName r2) :
    mkInfraRecord appId application_name r1 = mkInfraRecord appId application_name r2 := by
  obtain ⟨h1, h2, h3, h4, h5⟩ := h
  simp [mkInfraRecord, h2, h3, h4, h5]

theorem processInfra_congr (appId application_name : String)
    {r1 r2 : List InfrastructureRequest}
    (h : List.Forall₂ InfrastructureRequest.sameButName r1 r2) :
    ∀ envs, processInfra appId application_name envs r1 =
      processInfra appId application_name envs r2 := by
  induction h with
  | nil => intro envs; rfl
  | @cons x y t1 t2 hxy ht ih =>
    intro envs
    rw [processInfra_cons, processInfra_cons]
    have hsi : stepItem appId application_name envs x =
        stepItem appId application_name envs y := by
      unfold stepItem
      rw [hxy.1, mkInfraRecord_congr appId application_name hxy]
    have hse : stepEnvs appId application_name envs x =
        stepEnvs appId application_name envs y := by
      unfold stepEnvs
      rw [hxy.1, mkInfraRecord_congr appId application_name hxy]
    rw [hsi, hse, ih]

/-- C10 (implicit): onboarding ignores the `applicationName` embedded in
the DevOps body and in every infrastructure body — two calls differing only
in those fields produce identical responses, states and save traces — and
every record it creates carries the path parameter's application name and
that application's id. -/
theorem claim_C10 (st : AppState) (application_name : String) (d1 d2 : DevOpsRequest)
    (r1 r2 : List InfrastructureRequest) (dOk iOk : Bool)
    (hd : d1.sameButName d2)
    (hr : List.Forall₂ InfrastructureRequest.sameButName r1 r2) :
    onboard_application_details st application_name d1 r1 dOk iOk =
      onboard_application_details st application_name d2 r2 dOk iOk ∧
    (∀ app, find_app_by_id_or_name st.applications application_name = some app →
      ∀ resp st' saves,
        onboard_application_details st application_name d1 r1 dOk iOk =
          (.ok resp, st', saves) →
        (∀ rec, resp.results.devops.data = some rec →
          rec.applicationName = application_name ∧ rec.id = app.id) ∧
        (∀ item ∈ resp.results.infrastructure, ∀ rec, item.data = some rec →
          rec.applicationName = application_name ∧ rec.id = app.id)) := by
  constructor
  · cases hf : find_app_by_id_or_name st.applications application_name with
    | none => rw [onboard_none hf d1 r1 dOk iOk, onboard_none hf d2 r2 dOk iOk]
    | some app =>
      cases iOk with
      | true =>
        rw [onboard_some_true hf d1 r1 dOk, onboard_some_true hf d2 r2 dOk,
          onboardDevOpsStep_congr app application_name st.devops dOk hd,
          processInfra_congr app.id application_name hr st.environments]
      | false =>
        rw [onboard_some_false hf d1 r1 dOk, onboard_some_false hf d2 r2 dOk,
          onboardDevOpsStep_congr app application_name st.devops dOk hd,
          processInfra_congr app.id application_name hr st.environments]
  · intro app happ resp st' saves h
    cases iOk with
    | true =>
      rw [onboard_some_true happ d1 r1 dOk] at h
      simp only [Prod.mk.injEq, Except.ok.injEq] at h
      constructor
      · intro rec hdata
        rw [← h.1] at hdata
        have := onboardDevOpsStep_data app application_name d1 st.devops dOk rec hdata
        subst this
        exact ⟨rfl, rfl⟩
      · intro item hmem rec hdata
        rw [← h.1] at hmem
        have := processInfra_data app.id application_name r1 st.environments item hmem
          rec hdata
        exact ⟨this.2, this.1⟩
    | false =>
      rw [onboard_some_false happ d1 r1 dOk] at h
      simp only [Prod.mk.injEq, Except.ok.injEq] at h
      constructor
      · intro rec hdata
        rw [← h.1] at hdata
        have := onboardDevOpsStep_data app application_name d1 st.devops dOk rec hdata
        subst this
        exact ⟨rfl, rfl⟩
      · intro item hmem rec hdata
        rw [← h.1] at hmem
        have := processInfra_data app.id application_name r1 st.environments item hmem
          rec hdata
        exact ⟨this.2, this.1⟩

/-- C10 witness: two onboard calls for `alpha` whose bodies embed the
application names `alpha` resp. `gamma` (all other fields equal) coincide,
and every created record carries `alpha` and `app-001`. -/
theorem claim_C10_witness :
    onboard_application_details sampleState "alpha" (mkDevOpsRequest "alpha")
      [mkInfraRequest "alpha" "staging"] true true =
      onboard_application_details sampleState "alpha" (mkDevOpsRequest "gamma")
        [mkInfraRequest "gamma" "staging"] true true ∧
    (∀ app, find_app_by_id_or_name sampleState.applications "alpha" = some app →
      ∀ resp st' saves,
        onboard_application_details sampleState "alpha" (mkDevOpsRequest "alpha")
          [mkInfraRequest "alpha" "staging"] true true = (.ok resp, st', saves) →
        (∀ rec, resp.results.devops.data = some rec →
          rec.applicationName = "alpha" ∧ rec.id = app.id) ∧
        (∀ item ∈ resp.results.infrastructure, ∀ rec, item.data = some rec →
          rec.applicationName = "alpha" ∧ rec.id = app.id)) :=
  claim_C10 sampleState "alpha" (mkDevOpsRequest "alpha") (mkDevOpsRequest "gamma")
    [mkInfraRequest "alpha" "staging"] [mkInfraRequest "gamma" "staging"] true true
    ⟨rfl, rfl, rfl, rfl⟩
    (List.forall₂_cons.mpr ⟨⟨rfl, rfl, rfl, rfl, rfl⟩, List.Forall₂.nil⟩)
